import Mathlib

/-!
Shallow embedding of `questionary.py` (an interactive quiz viewer) and proofs
about its specification claims.

The embedding translates the pure/observable core of the program:
* the question-file parser `read_questions` (lines 36-82 of the source),
* the image fitter `scale_image` (lines 122-152), modelled over exact
  rationals (the source computes the same formulas with Python floats),
* the session state machine `act` / `current` (lines 97-120, 199-210),
* the option-rendering and body-text selection slice of `render_question`
  (lines 154-197), abstracted to the draw-plan data it produces.

Python-level primitives (`str.rstrip`, `re.split(r'\s*:\s*', line, maxsplit=2)`,
`int(str)`, `os.path.dirname`, `os.path.join`, dataclass attribute dictionaries)
are modelled explicitly below, restricted to ASCII whitespace/digits.
-/

namespace QSpec

/-- ASCII subset of Python's `\s` / `str.rstrip` whitespace. -/
def isPySpace (c : Char) : Bool :=
  c = ' ' || c = '\t' || c = '\n' || c = '\r' || c = '\x0b' || c = '\x0c'

/-- Drop a trailing whitespace run from a character list (`str.rstrip`). -/
def pyRstripList (l : List Char) : List Char :=
  (l.reverse.dropWhile isPySpace).reverse

/-- Python `str.rstrip()` on a string. -/
def pyRstrip (s : String) : String :=
  ⟨pyRstripList s.data⟩

/-- Drop a leading whitespace run (`str.lstrip`, used for the `\s*` after a colon). -/
def dropLeadingWS (l : List Char) : List Char :=
  l.dropWhile isPySpace

/-- One leftmost match of the regex `\s*:\s*`: split at the first colon,
consuming the maximal whitespace runs adjacent to it.  Returns the text
before the match and the text after it, or `none` when no colon occurs. -/
def findColonSplit (l : List Char) : Option (List Char × List Char) :=
  match l.findIdx? (fun c => c = ':') with
  | none => none
  | some i => some (pyRstripList (l.take i), dropLeadingWS (l.drop (i+1)))

/-- Python `re.split(r'\s*:\s*', line, maxsplit=n)`: repeatedly split at the
leftmost `\s*:\s*` match, at most `n` times. -/
def reSplitColon : List Char → Nat → List (List Char)
  | l, 0 => [l]
  | l, n+1 =>
    match findColonSplit l with
    | none => [l]
    | some (pre, post) => pre :: reSplitColon post n

/-- The `name, value = re.split(r'\s*:\s*', line, maxsplit=2)` statement of the
source: the tuple unpacking succeeds only when the split yields exactly two
parts (so a line with two or more colons fails, since `maxsplit=2` permits a
third part). -/
def splitNameValue (line : String) : Option (String × String) :=
  match reSplitColon line.data 2 with
  | [n, v] => some (⟨n⟩, ⟨v⟩)
  | _ => none

/-- `line.startswith('#')` for the one-character prefix used by the source. -/
def startsHash (s : String) : Bool :=
  match s.data with
  | c :: _ => c = '#'
  | [] => false

/-- posixpath `os.path.dirname`: everything up to the last slash, with the
trailing slashes stripped unless the head is all slashes. -/
def pyDirname (p : String) : String :=
  let l := p.data
  let i := match l.reverse.findIdx? (fun c => c = '/') with
           | none => 0
           | some j => l.length - j
  let head := l.take i
  if head.length ≠ 0 ∧ ¬ (head.all (fun c => c = '/')) then
    ⟨(head.reverse.dropWhile (fun c => c = '/')).reverse⟩
  else ⟨head⟩

/-- Whether a path string starts with a slash (an absolute posix path). -/
def startsWithSlash (s : String) : Bool :=
  match s.data with
  | c :: _ => c = '/'
  | [] => false

/-- Whether a path string ends with a slash. -/
def endsWithSlash (s : String) : Bool :=
  match s.data.reverse with
  | c :: _ => c = '/'
  | [] => false

/-- posixpath `os.path.join` for the two-argument form used by the source. -/
def pathJoin (base value : String) : String :=
  if startsWithSlash value then value
  else if base = "" then value
  else if endsWithSlash base then base ++ value
  else base ++ "/" ++ value

/-- The runtime value of the `answer` attribute: the dataclass default is the
integer `0`, but the parser's `setattr` stores the raw string from the file. -/
inductive PyAnswer
  | int (n : ℤ)
  | str (s : String)
deriving DecidableEq, Repr

/-- The `Question` dataclass of the source.  `extra` records instance
attributes created by `setattr` for class-dictionary names that are not
data fields (e.g. `__doc__`), which the parser accepts without error. -/
structure Question where
  title : Option String := none
  question : String := ""
  options : List String := []
  images : List String := []
  answer : PyAnswer := .int 0
  final_text : Option String := none
  final_image : Option String := none
  extra : List (String × String) := []
deriving DecidableEq, Repr

/-- The keys of `vars(Question)`: for this dataclass, the class dictionary
holds the Python class machinery (dunder names; fields with a
`default_factory`, i.e. `options` and `images`, are removed from it) together
with the data fields that have plain defaults. -/
def varsQuestion : List String :=
  ["__module__", "__doc__", "__annotations__", "__dict__",
   "__weakref__", "__dataclass_fields__", "__dataclass_params__", "__init__",
   "__repr__", "__eq__", "__hash__", "__match_args__",
   "title", "question", "answer", "final_text", "final_image"]

/-- Structured form of the two fatal parser exceptions; each carries the file
name and the 1-based line number that the source interpolates into its
message. -/
inductive ParseError
  | failedParse (filename : String) (lineNumber : Nat) (line : String)
  | invalidField (name : String) (filename : String) (lineNumber : Nat) (line : String)
deriving DecidableEq, Repr

/-- `setattr(quest, name, value)` for a name found in `vars(Question)`:
data fields are overwritten with the raw string; other class-dictionary
names become plain instance attributes. -/
def setattrQuestion (q : Question) (name value : String) : Question :=
  if name = "title" then { q with title := some value }
  else if name = "question" then { q with question := value }
  else if name = "answer" then { q with answer := .str value }
  else if name = "final_text" then { q with final_text := some value }
  else { q with extra := q.extra ++ [(name, value)] }

/-- The body of the parser's `else` branch for a content line: split into
`name`/`value`, then dispatch on the field name exactly as the source's
`if`/`elif` chain does. -/
def applyField (basePath filename : String) (lineNumber : Nat) (line : String)
    (q : Question) : Except ParseError Question :=
  match splitNameValue line with
  | none => .error (.failedParse filename lineNumber line)
  | some (name, value) =>
    if name = "option" then .ok { q with options := q.options ++ [value] }
    else if name = "image" then .ok { q with images := q.images ++ [pathJoin basePath value] }
    else if name = "final_image" then .ok { q with final_image := some (pathJoin basePath value) }
    else if varsQuestion.contains name then .ok (setattrQuestion q name value)
    else .error (.invalidField name filename lineNumber line)

/-- The loop of `read_questions`: `lines` are the file's lines (without their
trailing newline, which `rstrip` would remove anyway), `ln` the 1-based line
number, `quest` the accumulating record and `acc` the records yielded so far. -/
def readGo (filename basePath : String) :
    List String → Nat → Question → List Question → Except ParseError (List Question)
  | [], _, quest, acc =>
    .ok (if quest.question.length ≠ 0 then acc ++ [quest] else acc)
  | l :: rest, ln, quest, acc =>
    let line := pyRstrip l
    if line.length = 0 then
      readGo filename basePath rest (ln+1) {}
        (if quest.question.length ≠ 0 then acc ++ [quest] else acc)
    else if startsHash line then
      readGo filename basePath rest (ln+1) quest acc
    else
      match applyField basePath filename ln line quest with
      | .error e => .error e
      | .ok q => readGo filename basePath rest (ln+1) q acc

/-- `read_questions(filename)` on a file whose lines are `lines`; the
generator is modelled as the full list of yielded records, or the first
raised exception. -/
def read_questions (filename : String) (lines : List String) :
    Except ParseError (List Question) :=
  readGo filename (pyDirname filename) lines 1 {} []

/-! ## Quiz session state (`Questionary.__init__`, `current`, `next`, `act`) -/

/-- The mutable state of a `Questionary` object: `questions` is the not yet
consumed tail of the question iterator, `cur` is `_current` (with `none` for
Python `None`), `showFinal` is `_show_final`. -/
structure QuestionaryState where
  questions : List Question
  cur : Option Question
  showFinal : Bool
deriving DecidableEq, Repr

/-- The state set up by `Questionary.__init__`. -/
def initState (qs : List Question) : QuestionaryState :=
  ⟨qs, none, false⟩

/-- The `current` property: returns the current question, pulling the next one
from the iterator (`next(self._questions, None)`) when `_current is None`.
Returns the value together with the possibly updated state. -/
def currentGet (s : QuestionaryState) : Option Question × QuestionaryState :=
  match s.cur with
  | some q => (some q, s)
  | none =>
    match s.questions with
    | [] => (none, s)
    | q :: rest => (some q, { s with cur := some q, questions := rest })

/-- `Questionary.next`: clears `_current` and re-reads the `current` property. -/
def nextQ (s : QuestionaryState) : Option Question × QuestionaryState :=
  currentGet { s with cur := none }

/-- `Questionary.act`: reveal the current question, or advance past a revealed
one, or do nothing when no question is left. -/
def act (s : QuestionaryState) : QuestionaryState :=
  let p := currentGet s
  match p.1 with
  | none => p.2
  | some _ =>
    if p.2.showFinal then (nextQ { p.2 with showFinal := false }).2
    else { p.2 with showFinal := true }

/-- The question an observer sees: the value of the `current` property. -/
def currentOf (s : QuestionaryState) : Option Question :=
  (currentGet s).1

/-! ## Image fitter (`Questionary.scale_image`)

The source computes with Python floats; the model uses exact rationals, and
`int(...)` (truncation toward zero, equal to `Int.floor` for the non-negative
quantities arising from positive sizes) and float floor-division `// 2` are
both modelled with `Int.floor`. -/

/-- `Questionary.scale_image`: given the image size and the target size,
return the scaled size and the `(x, y)` offset. -/
def scale_image (image_w image_h screen_w screen_h : ℚ) (center_image : Bool) :
    (ℚ × ℚ) × (ℚ × ℚ) :=
  let screen_aspect_ratio := screen_w / screen_h
  let photo_aspect_ratio := image_w / image_h
  if screen_aspect_ratio < photo_aspect_ratio then
    -- Width is binding
    let new_image_w := screen_w
    let new_image_h : ℚ := (⌊new_image_w / photo_aspect_ratio⌋ : ℤ)
    ((new_image_w, new_image_h),
     (0, if center_image then ((⌊(screen_h - new_image_h) / 2⌋ : ℤ) : ℚ) else 0))
  else if screen_aspect_ratio > photo_aspect_ratio then
    -- Height is binding
    let new_image_h := screen_h
    let new_image_w : ℚ := (⌊new_image_h * photo_aspect_ratio⌋ : ℤ)
    ((new_image_w, new_image_h),
     (if center_image then ((⌊(screen_w - new_image_w) / 2⌋ : ℤ) : ℚ) else 0, 0))
  else
    -- Images have the same aspect ratio
    ((screen_w, screen_h), (0, 0))

/-! ## Rendering slice (`Questionary.render_question`, lines 166-182)

Only the data the draw plan depends on is modelled: the body text choice and
the per-option `(text, highlighted)` rows.  An `Except Unit` failure stands
for an uncaught Python exception (`IndexError` from `string.ascii_letters[index]`
or `ValueError` from `int(quest.answer)`). -/

/-- `string.ascii_letters`. -/
def asciiLetters : List Char :=
  "abcdefghijklmnopqrstuvwxyzABCDEFGHIJKLMNOPQRSTUVWXYZ".data

/-- `option.replace('\\n', '\n')`: left-to-right non-overlapping replacement
of the two-character sequence backslash-n by a newline. -/
def replaceBackslashN : List Char → List Char
  | '\\' :: 'n' :: rest => '\n' :: replaceBackslashN rest
  | c :: rest => c :: replaceBackslashN rest
  | [] => []

/-- A digit character's value. -/
def pyDigit? (c : Char) : Option Nat :=
  if '0' ≤ c ∧ c ≤ '9' then some (c.toNat - '0'.toNat) else none

/-- Digits of a Python integer literal after the first one: a single
underscore is allowed between two digits. -/
def digitsCore : List Char → Nat → Option Nat
  | [], acc => some acc
  | '_' :: c :: rest, acc =>
    match pyDigit? c with
    | some d => digitsCore rest (acc * 10 + d)
    | none => none
  | ['_'], _ => none
  | c :: rest, acc =>
    match pyDigit? c with
    | some d => digitsCore rest (acc * 10 + d)
    | none => none

/-- A non-empty digit sequence with optional single underscores between digits. -/
def pyIntDigits : List Char → Option Nat
  | [] => none
  | c :: rest =>
    match pyDigit? c with
    | none => none
    | some d => digitsCore rest d

/-- Python `int(s)` for a string (ASCII subset): strip whitespace, optional
sign, then digits; `none` models the `ValueError`. -/
def pyStrToInt (s : String) : Option ℤ :=
  let t := ((s.data.dropWhile isPySpace).reverse.dropWhile isPySpace).reverse
  match t with
  | '+' :: rest => (pyIntDigits rest).map (fun n => (n : ℤ))
  | '-' :: rest => (pyIntDigits rest).map (fun n => -(n : ℤ))
  | _ => (pyIntDigits t).map (fun n => (n : ℤ))

/-- `int(quest.answer)`: identity on the integer default, string conversion
otherwise. -/
def answerInt (a : PyAnswer) : Option ℤ :=
  match a with
  | .int n => some n
  | .str s => pyStrToInt s

/-- One iteration of the options loop: the drawn text and whether the drawn
color is the highlight color.  `.error ()` models an uncaught exception;
note the Python `and` short-circuit: `int(quest.answer)` is only evaluated
when `_show_final` is true. -/
def renderOption (showFinal : Bool) (answer : PyAnswer) (index : Nat)
    (opt : String) : Except Unit (String × Bool) :=
  let optTxt : String := ⟨replaceBackslashN opt.data⟩
  match asciiLetters.get? index with
  | none => .error ()
  | some c =>
    let label := String.mk [c] ++ ". "
    if showFinal then
      match answerInt answer with
      | none => .error ()
      | some a => .ok (label ++ optTxt, ((index : ℤ) + 1 == a))
    else .ok (label ++ optTxt, false)

/-- The `for index, option in enumerate(quest.options)` loop, collecting the
rows drawn so far and stopping at the first uncaught exception. -/
def renderLoop (showFinal : Bool) (answer : PyAnswer) :
    Nat → List String → Except Unit (List (String × Bool))
  | _, [] => .ok []
  | i, o :: os =>
    match renderOption showFinal answer i o with
    | .error e => .error e
    | .ok row =>
      match renderLoop showFinal answer (i+1) os with
      | .error e => .error e
      | .ok rows => .ok (row :: rows)

/-- The whole options loop of `render_question`: the list of option rows the
draw plan contains, or the first uncaught exception. -/
def renderedOptions (q : Question) (showFinal : Bool) :
    Except Unit (List (String × Bool)) :=
  renderLoop showFinal q.answer 0 q.options

/-- The body line of `render_question`:
`quest.final_text or quest.question if self._show_final else quest.question`,
with Python truthiness (both `None` and the empty string are falsy). -/
def bodyText (q : Question) (showFinal : Bool) : String :=
  if showFinal then
    match q.final_text with
    | some t => if t.length ≠ 0 then t else q.question
    | none => q.question
  else q.question

/-- The first non-whitespace character of a line (used to state the spec's
notion of a comment line). -/
def firstNonWS (s : String) : Option Char :=
  (s.data.dropWhile isPySpace).head?

/-! ## Record-block processing, for stating the well-formed-records claim -/

/-- Processing one blank-line-free block of lines through the parser's
content-line branches, starting from record `q`. -/
def processBlock (filename basePath : String) :
    List String → Nat → Question → Except ParseError Question
  | [], _, q => .ok q
  | l :: rest, ln, q =>
    let line := pyRstrip l
    if startsHash line then processBlock filename basePath rest (ln+1) q
    else
      match applyField basePath filename ln line q with
      | .error e => .error e
      | .ok q2 => processBlock filename basePath rest (ln+1) q2

/-- Blocks joined by single blank separator lines, the shape of a well-formed
question file. -/
def joinBlocks : List (List String) → List String
  | [] => []
  | [b] => b
  | b :: bs => b ++ [""] ++ joinBlocks bs

/-- The row the options loop draws for option `opt` at 0-based `index` when
the question is revealed and the answer converts to the integer `a`. -/
def optionRow (a : ℤ) (index : Nat) (opt : String) : String × Bool :=
  (String.mk [asciiLetters.getD index ' '] ++ ". " ++ ⟨replaceBackslashN opt.data⟩,
   ((index : ℤ) + 1 == a))

/-- The rows for a list of options starting at 0-based index `i`. -/
def optionRows (a : ℤ) : Nat → List String → List (String × Bool)
  | _, [] => []
  | i, o :: os => optionRow a i o :: optionRows a (i+1) os

/-! ## Step lemmas about the parser loop -/

lemma readGo_nil (fn bp : String) (ln : Nat) (q : Question) (acc : List Question) :
    readGo fn bp [] ln q acc = .ok (if q.question.length ≠ 0 then acc ++ [q] else acc) := rfl

lemma readGo_blank (fn bp l : String) (rest : List String) (ln : Nat) (q : Question)
    (acc : List Question) (h : (pyRstrip l).length = 0) :
    readGo fn bp (l :: rest) ln q acc =
      readGo fn bp rest (ln+1) {} (if q.question.length ≠ 0 then acc ++ [q] else acc) := by
  simp only [readGo]
  rw [if_pos h]

lemma readGo_comment (fn bp l : String) (rest : List String) (ln : Nat) (q : Question)
    (acc : List Question) (h1 : (pyRstrip l).length ≠ 0)
    (h2 : startsHash (pyRstrip l) = true) :
    readGo fn bp (l :: rest) ln q acc = readGo fn bp rest (ln+1) q acc := by
  simp only [readGo]
  rw [if_neg h1, if_pos h2]

lemma readGo_content (fn bp l : String) (rest : List String) (ln : Nat) (q : Question)
    (acc : List Question) (h1 : (pyRstrip l).length ≠ 0)
    (h2 : startsHash (pyRstrip l) = false) :
    readGo fn bp (l :: rest) ln q acc =
      match applyField bp fn ln (pyRstrip l) q with
      | .error e => .error e
      | .ok q2 => readGo fn bp rest (ln+1) q2 acc := by
  simp only [readGo]
  rw [if_neg h1, if_neg (by simp [h2])]

lemma splitNameValue_some_nonempty (s : String) (nv : String × String)
    (h : splitNameValue s = some nv) : s.length ≠ 0 := by
  intro hlen
  have hdata : s.data = [] := List.length_eq_zero.mp hlen
  obtain ⟨l⟩ := s
  simp only at hdata
  subst hdata
  simp [splitNameValue, reSplitColon, findColonSplit, List.findIdx?] at h

/-! ## C1: values containing further colons -/

/-- C1 (code bug, claim is the intent): the claim says that in a line
`name: value` only the first colon separates name and value and the value may
itself contain further colons without error.  The code calls
`re.split(r'\s*:\s*', line, maxsplit=2)`, which permits a third part, so any
content line with two or more colons makes the `name, value = ...` unpacking
raise, re-raised as the fatal parse error.  At the failing input
`question: 12:30` the split yields three parts and parsing dies. -/
theorem c1_colon_in_value_is_fatal :
    reSplitColon "question: 12:30".data 2 = ["question".data, "12".data, "30".data]
    ∧ read_questions "quiz.txt" ["question: 12:30"] =
        .error (.failedParse "quiz.txt" 1 "question: 12:30") :=
  ⟨rfl, rfl⟩

/-! ## C2: unknown field names -/

/-- C2 counterexample: `__doc__` is not one of the seven recognized field
names, yet a `__doc__: b` content line is accepted silently, because the
source's membership test is `name in vars(Question)` and the class dictionary
of the dataclass contains the Python class machinery names. -/
theorem c2_counterexample :
    splitNameValue "__doc__: b" = some ("__doc__", "b")
    ∧ "__doc__" ∉ ["title", "question", "option", "image", "answer", "final_text", "final_image"]
    ∧ read_questions "f" ["question: a", "__doc__: b"] =
        .ok [{ question := "a", extra := [("__doc__", "b")] }] :=
  ⟨rfl, by decide, rfl⟩

/-- C2 (amended): a content line whose field name is neither `option`, `image`
nor `final_image`, and is also not a key of `vars(Question)` (the data fields
with plain defaults together with the Python class-machinery names such as
`__doc__`, which the code silently accepts), raises the fatal format error
carrying the file name and the 1-based line number.  The closed conjunct
shows the 1-based numbering on a concrete file: `foo: bar` on line 3 is
reported as line 3. -/
theorem c2_unknown_field_fatal (fn bp line name value : String) (rest : List String)
    (ln : Nat) (q : Question) (acc : List Question)
    (hsplit : splitNameValue (pyRstrip line) = some (name, value))
    (hhash : startsHash (pyRstrip line) = false)
    (h1 : name ≠ "option") (h2 : name ≠ "image") (h3 : name ≠ "final_image")
    (h4 : varsQuestion.contains name = false) :
    readGo fn bp (line :: rest) ln q acc = .error (.invalidField name fn ln (pyRstrip line))
    ∧ read_questions "f.txt" ["question: q", "", "foo: bar"] =
        .error (.invalidField "foo" "f.txt" 3 "foo: bar") := by
  constructor
  · rw [readGo_content fn bp line rest ln q acc
      (splitNameValue_some_nonempty _ _ hsplit) hhash]
    unfold applyField
    rw [hsplit]
    have h4' : name ∉ varsQuestion := by simpa using h4
    simp [h1, h2, h3, h4']
  · rfl

/-- Witness for C2 at the concrete unknown field `foo: bar`. -/
theorem c2_unknown_field_fatal_witness :
    readGo "g" "" ["foo: bar"] 1 {} [] = .error (.invalidField "foo" "g" 1 (pyRstrip "foo: bar"))
    ∧ read_questions "f.txt" ["question: q", "", "foo: bar"] =
        .error (.invalidField "foo" "f.txt" 3 "foo: bar") :=
  c2_unknown_field_fatal "g" "" "foo: bar" "foo" "bar" [] 1 {} []
    rfl rfl (by decide) (by decide) (by decide) rfl

/-! ## C6: comment lines -/

/-- C6 counterexample: the claim says every line whose first non-whitespace
character is `#` is skipped entirely and raises no error.  The code tests
`line.startswith('#')` after `rstrip`, which does not strip leading
whitespace, so the line `" # x"` (first non-whitespace character `#`) is
parsed as a content line and, lacking a colon, raises the fatal parse error. -/
theorem c6_counterexample :
    firstNonWS " # x" = some '#'
    ∧ read_questions "f" ["question: a", " # x"] = .error (.failedParse "f" 2 " # x") :=
  ⟨rfl, rfl⟩

/-- C6 (amended): every line whose first character, after stripping trailing
whitespace, is `#` is skipped entirely by the parser: it contributes nothing
to the current record, raises no error, does not terminate the record, and
only the line counter advances.  (A `#` preceded by leading whitespace is not
a comment marker for this code.) -/
theorem c6_hash_comment_skipped (fn bp line : String) (rest : List String) (ln : Nat)
    (q : Question) (acc : List Question) (h : startsHash (pyRstrip line) = true) :
    readGo fn bp (line :: rest) ln q acc = readGo fn bp rest (ln+1) q acc := by
  have hne : (pyRstrip line).length ≠ 0 := by
    intro hlen
    have hdata : (pyRstrip line).data = [] := List.length_eq_zero.mp hlen
    rw [startsHash, hdata] at h
    exact Bool.false_ne_true h
  exact readGo_comment fn bp line rest ln q acc hne h

/-- Witness for C6 at the concrete comment line `#hi`. -/
theorem c6_hash_comment_skipped_witness :
    readGo "f" "" ["#hi", "question: a"] 1 {} [] = readGo "f" "" ["question: a"] 2 {} [] :=
  c6_hash_comment_skipped "f" "" "#hi" ["question: a"] 1 {} [] rfl

/-! ## C5: blank-line-separated records -/

lemma processBlock_nil (fn bp : String) (ln : Nat) (q : Question) :
    processBlock fn bp [] ln q = .ok q := rfl

/-- Running the parser loop over one blank-line-free block that processes
cleanly to `q'` just advances the loop past the block. -/
lemma readGo_block (fn bp : String) :
    ∀ (block rest : List String) (ln : Nat) (q q' : Question) (acc : List Question),
      (∀ l ∈ block, (pyRstrip l).length ≠ 0) →
      processBlock fn bp block ln q = .ok q' →
      readGo fn bp (block ++ rest) ln q acc = readGo fn bp rest (ln + block.length) q' acc := by
  intro block
  induction block with
  | nil =>
    intro rest ln q q' acc _ hp
    rw [processBlock_nil] at hp
    cases hp
    simp
  | cons l bl ih =>
    intro rest ln q q' acc hnb hp
    have hlne : (pyRstrip l).length ≠ 0 := hnb l (by simp)
    have hbl : ∀ x ∈ bl, (pyRstrip x).length ≠ 0 := fun x hx => hnb x (by simp [hx])
    simp only [List.cons_append]
    by_cases hh : startsHash (pyRstrip l) = true
    · rw [readGo_comment fn bp l (bl ++ rest) ln q acc hlne hh]
      unfold processBlock at hp
      rw [if_pos hh] at hp
      rw [ih rest (ln+1) q q' acc hbl hp]
      have : ln + 1 + bl.length = ln + (bl.length + 1) := by omega
      rw [this]
      rfl
    · have hh' : startsHash (pyRstrip l) = false := by
        cases hb : startsHash (pyRstrip l)
        · rfl
        · exact absurd hb hh
      rw [readGo_content fn bp l (bl ++ rest) ln q acc hlne hh']
      unfold processBlock at hp
      rw [if_neg (by simp [hh'])] at hp
      cases ha : applyField bp fn ln (pyRstrip l) q with
      | error e => rw [ha] at hp; simp at hp
      | ok q2 =>
        rw [ha] at hp
        simp only [ha]
        rw [ih rest (ln+1) q2 q' acc hbl hp]
        have : ln + 1 + bl.length = ln + (bl.length + 1) := by omega
        rw [this]
        rfl

/-- The freshly constructed record has an empty question text. -/
lemma default_question_empty : (({} : Question)).question.length = 0 := rfl

/-- Parsing blocks joined by blank separator lines appends the blocks'
records, provided each block is well formed. -/
lemma readGo_joinBlocks (fn bp : String) :
    ∀ (blocks : List (List String)) (qs : List Question) (ln : Nat) (acc : List Question),
      List.Forall₂ (fun b q =>
        (∀ l ∈ b, (pyRstrip l).length ≠ 0) ∧
        (∀ m, processBlock fn bp b m {} = .ok q) ∧
        q.question.length ≠ 0) blocks qs →
      readGo fn bp (joinBlocks blocks) ln {} acc = .ok (acc ++ qs) := by
  intro blocks
  induction blocks with
  | nil =>
    intro qs ln acc h
    cases h
    simp [joinBlocks, readGo_nil, default_question_empty]
  | cons b bs ih =>
    intro qs ln acc h
    cases h with
    | cons hb hrest =>
      obtain ⟨hnb, hproc, hq⟩ := hb
      cases bs with
      | nil =>
        cases hrest
        show readGo fn bp (joinBlocks [b]) ln {} acc = _
        have hjb : joinBlocks [b] = b ++ [] := by simp [joinBlocks]
        rw [hjb, readGo_block fn bp b [] ln {} _ acc hnb (hproc ln), readGo_nil,
          if_pos hq]
      | cons b2 bs2 =>
        rename_i q2 qs2
        show readGo fn bp (joinBlocks (b :: b2 :: bs2)) ln {} acc = _
        have hjb : joinBlocks (b :: b2 :: bs2) = b ++ ("" :: joinBlocks (b2 :: bs2)) := by
          simp [joinBlocks]
        rw [hjb, readGo_block fn bp b _ ln {} _ acc hnb (hproc ln),
          readGo_blank fn bp "" _ _ _ _ rfl, if_pos hq,
          ih qs2 _ (acc ++ [_]) hrest]
        simp

/-- C5: (i) a file of `N` well-formed records (blank-line-free blocks that
process cleanly to a record with non-empty question text) separated by single
blank lines parses to exactly those `N` records in file order; (ii) a blank
line yields the accumulated record iff its question text is non-empty, and
resets the accumulator to a fresh record regardless; (iii) at end of file the
in-progress record is yielded iff its question text is non-empty, with no
trailing blank line required. -/
theorem c5_blank_separated_records (fn bp l : String) (blocks : List (List String))
    (qs : List Question) (rest : List String) (ln : Nat) (q : Question)
    (acc : List Question)
    (hblocks : List.Forall₂ (fun b qr =>
        (∀ x ∈ b, (pyRstrip x).length ≠ 0) ∧
        (∀ m, processBlock fn (pyDirname fn) b m {} = .ok qr) ∧
        qr.question.length ≠ 0) blocks qs)
    (hblank : (pyRstrip l).length = 0) :
    read_questions fn (joinBlocks blocks) = .ok qs
    ∧ readGo fn bp (l :: rest) ln q acc =
        readGo fn bp rest (ln+1) {} (if q.question.length ≠ 0 then acc ++ [q] else acc)
    ∧ readGo fn bp [] ln q acc = .ok (if q.question.length ≠ 0 then acc ++ [q] else acc) := by
  refine ⟨?_, readGo_blank fn bp l rest ln q acc hblank, readGo_nil fn bp ln q acc⟩
  unfold read_questions
  rw [readGo_joinBlocks fn (pyDirname fn) blocks qs 1 [] hblocks]
  simp

/-- Witness for C5: a 2-record file parses to its 2 records in order, and the
blank-line and end-of-file steps evaluate at a concrete state. -/
theorem c5_blank_separated_records_witness :
    read_questions "f" (joinBlocks [["question: a"], ["question: b"]]) =
      .ok [{ question := "a" }, { question := "b" }]
    ∧ readGo "f" "" ["" ] 1 { question := "a" } [] =
        readGo "f" "" [] 2 {}
          (if ({ question := "a" } : Question).question.length ≠ 0 then [] ++ [{ question := "a" }] else [])
    ∧ readGo "f" "" [] 1 { question := "a" } [] =
        .ok (if ({ question := "a" } : Question).question.length ≠ 0 then [] ++ [{ question := "a" }] else []) :=
  c5_blank_separated_records "f" "" "" [["question: a"], ["question: b"]]
    [{ question := "a" }, { question := "b" }] [] 1 { question := "a" } []
    (List.Forall₂.cons ⟨by decide, fun m => rfl, by decide⟩
      (List.Forall₂.cons ⟨by decide, fun m => rfl, by decide⟩ List.Forall₂.nil))
    rfl

/-! ## C3: session state machine -/

/-- An exhausted state (observed current question `none`) is a literal
fixpoint of `act`. -/
lemma act_fixed_of_exhausted (s : QuestionaryState) (h : currentOf s = none) :
    act s = s := by
  obtain ⟨qs, cur, sf⟩ := s
  cases cur with
  | some q => simp [currentOf, currentGet] at h
  | none =>
    cases qs with
    | cons q rest => simp [currentOf, currentGet] at h
    | nil => simp [act, currentGet]

/-- C3: (i) an act on an unrevealed current question reveals it and keeps the
same current question; (ii) an act on a revealed question clears the revealed
flag and moves to the head of the remaining sequence (`none` when exhausted);
(iii) an act on an exhausted session changes nothing; (iv) once exhausted the
current question stays `none` after any number of acts; (v) from two
questions the act sequence is reveal, advance, reveal, advance, exhausted,
and a further act is a no-op. -/
theorem c3_session_machine (s : QuestionaryState) (q : Question) (n : Nat) :
    (currentOf s = some q → s.showFinal = false →
      currentOf (act s) = some q ∧ (act s).showFinal = true)
    ∧ (currentOf s = some q → s.showFinal = true →
      (act s).showFinal = false ∧ currentOf (act s) = ((currentGet s).2).questions.head?)
    ∧ (currentOf s = none → act s = s)
    ∧ (currentOf s = none → currentOf (act^[n] s) = none)
    ∧ (let qa : Question := { question := "a" }
       let qb : Question := { question := "b" }
       let s0 := initState [qa, qb]
       currentOf s0 = some qa ∧ s0.showFinal = false
       ∧ currentOf (act s0) = some qa ∧ (act s0).showFinal = true
       ∧ currentOf (act (act s0)) = some qb ∧ (act (act s0)).showFinal = false
       ∧ currentOf (act (act (act s0))) = some qb ∧ (act (act (act s0))).showFinal = true
       ∧ currentOf (act (act (act (act s0)))) = none
       ∧ act (act (act (act (act s0)))) = act (act (act (act s0)))) := by
  refine ⟨?_, ?_, act_fixed_of_exhausted s, ?_, ?_⟩
  · intro hc hr
    obtain ⟨qs, cur, sf⟩ := s
    have hr' : sf = false := hr
    subst hr'
    cases cur with
    | some q0 =>
      have hq0 : q0 = q := by simpa [currentOf, currentGet] using hc
      subst hq0
      simp [act, currentGet, currentOf]
    | none =>
      cases qs with
      | nil => simp [currentOf, currentGet] at hc
      | cons q0 rest =>
        have hq0 : q0 = q := by simpa [currentOf, currentGet] using hc
        subst hq0
        simp [act, currentGet, currentOf]
  · intro hc hr
    obtain ⟨qs, cur, sf⟩ := s
    have hr' : sf = true := hr
    subst hr'
    cases cur with
    | some q0 =>
      cases qs with
      | nil => simp [act, currentGet, currentOf, nextQ]
      | cons q2 rest => simp [act, currentGet, currentOf, nextQ]
    | none =>
      cases qs with
      | nil => simp [currentOf, currentGet] at hc
      | cons q0 rest =>
        cases rest with
        | nil => simp [act, currentGet, currentOf, nextQ]
        | cons q2 rest2 => simp [act, currentGet, currentOf, nextQ]
  · intro hc
    rw [Function.iterate_fixed (act_fixed_of_exhausted s hc) n]
    exact hc
  · exact ⟨rfl, rfl, rfl, rfl, rfl, rfl, rfl, rfl, rfl, rfl⟩

/-- Witness for C3: a one-question session, act on the unrevealed question
reveals it and keeps it current. -/
theorem c3_session_machine_witness :
    currentOf (act (initState [{ question := "a" }])) = some { question := "a" }
    ∧ (act (initState [{ question := "a" }])).showFinal = true :=
  (c3_session_machine (initState [{ question := "a" }]) { question := "a" } 0).1 rfl rfl

/-! ## C4 and C7: the image fitter -/

/-- C4: for positive image and viewport sizes, the fitted size is within the
viewport, at least one fitted dimension equals the corresponding viewport
dimension, the offsets are non-negative, and with centering enabled each
offset either centers the image along that axis (floor of half the slack) or
is zero with that axis binding. -/
theorem c4_scale_image_fits (image_w image_h screen_w screen_h : ℚ) (center_image : Bool)
    (nw nh x y : ℚ)
    (hiw : 0 < image_w) (hih : 0 < image_h) (hsw : 0 < screen_w) (hsh : 0 < screen_h)
    (heq : scale_image image_w image_h screen_w screen_h center_image = ((nw, nh), (x, y))) :
    nw ≤ screen_w ∧ nh ≤ screen_h ∧ (nw = screen_w ∨ nh = screen_h)
    ∧ 0 ≤ x ∧ 0 ≤ y
    ∧ (center_image = true →
        (x = ((⌊(screen_w - nw) / 2⌋ : ℤ) : ℚ) ∨ (x = 0 ∧ nw = screen_w))
        ∧ (y = ((⌊(screen_h - nh) / 2⌋ : ℤ) : ℚ) ∨ (y = 0 ∧ nh = screen_h))) := by
  have hpar : 0 < image_w / image_h := div_pos hiw hih
  simp only [scale_image] at heq
  by_cases h1 : screen_w / screen_h < image_w / image_h
  · rw [if_pos h1] at heq
    simp only [Prod.mk.injEq] at heq
    obtain ⟨⟨e1, e2⟩, e3, e4⟩ := heq
    subst e1
    subst e2
    subst e3
    subst e4
    have key : screen_w / (image_w / image_h) < screen_h := by
      have h1' : screen_w * image_h < image_w * screen_h := (div_lt_div_iff₀ hsh hih).mp h1
      rw [div_lt_iff₀ hpar, ← mul_div_assoc, lt_div_iff₀ hih]
      linarith
    have hfl : ((⌊screen_w / (image_w / image_h)⌋ : ℤ) : ℚ) ≤ screen_h :=
      le_trans (Int.floor_le _) key.le
    refine ⟨le_refl _, hfl, Or.inl rfl, le_refl _, ?_, ?_⟩
    · split
      · have hq : (0:ℚ) ≤ (screen_h - ((⌊screen_w / (image_w / image_h)⌋ : ℤ) : ℚ)) / 2 :=
          div_nonneg (sub_nonneg.mpr hfl) (by norm_num)
        exact_mod_cast Int.floor_nonneg.mpr hq
      · exact le_refl _
    · intro hcen
      refine ⟨Or.inr ⟨rfl, rfl⟩, ?_⟩
      simp only [hcen, if_true]
      exact Or.inl trivial
  · rw [if_neg h1] at heq
    by_cases h2 : screen_w / screen_h > image_w / image_h
    · rw [if_pos h2] at heq
      simp only [Prod.mk.injEq] at heq
      obtain ⟨⟨e1, e2⟩, e3, e4⟩ := heq
      subst e1
      subst e2
      subst e3
      subst e4
      have key : screen_h * (image_w / image_h) < screen_w := by
        have h2' : image_w * screen_h < screen_w * image_h := (div_lt_div_iff₀ hih hsh).mp h2
        rw [← mul_div_assoc, div_lt_iff₀ hih]
        linarith
      have hfl : ((⌊screen_h * (image_w / image_h)⌋ : ℤ) : ℚ) ≤ screen_w :=
        le_trans (Int.floor_le _) key.le
      refine ⟨hfl, le_refl _, Or.inr rfl, ?_, le_refl _, ?_⟩
      · split
        · have hq : (0:ℚ) ≤ (screen_w - ((⌊screen_h * (image_w / image_h)⌋ : ℤ) : ℚ)) / 2 :=
            div_nonneg (sub_nonneg.mpr hfl) (by norm_num)
          exact_mod_cast Int.floor_nonneg.mpr hq
        · exact le_refl _
      · intro hcen
        refine ⟨?_, Or.inr ⟨rfl, rfl⟩⟩
        simp only [hcen, if_true]
        exact Or.inl trivial
    · rw [if_neg h2] at heq
      simp only [Prod.mk.injEq] at heq
      obtain ⟨⟨e1, e2⟩, e3, e4⟩ := heq
      subst e1
      subst e2
      subst e3
      subst e4
      exact ⟨le_refl _, le_refl _, Or.inl rfl, le_refl _, le_refl _,
        fun _ => ⟨Or.inr ⟨rfl, rfl⟩, Or.inr ⟨rfl, rfl⟩⟩⟩

/-- Witness for C4 at image 200×100 in viewport 100×100 with centering. -/
theorem c4_scale_image_fits_witness :
    (100:ℚ) ≤ 100 ∧ (50:ℚ) ≤ 100 ∧ ((100:ℚ) = 100 ∨ (50:ℚ) = 100)
    ∧ (0:ℚ) ≤ 0 ∧ (0:ℚ) ≤ 25
    ∧ (true = true →
        ((0:ℚ) = ((⌊((100:ℚ) - 100) / 2⌋ : ℤ) : ℚ) ∨ ((0:ℚ) = 0 ∧ (100:ℚ) = 100))
        ∧ ((25:ℚ) = ((⌊((100:ℚ) - 50) / 2⌋ : ℤ) : ℚ) ∨ ((25:ℚ) = 0 ∧ (50:ℚ) = 100))) :=
  c4_scale_image_fits 200 100 100 100 true 100 50 0 25
    (by norm_num) (by norm_num) (by norm_num) (by norm_num) (by norm_num [scale_image])

/-- C7: when the viewport aspect ratio is smaller than the image aspect
ratio, the width is binding: the fitted width is the viewport width, the
fitted height is the floor of width over image aspect ratio, the horizontal
offset is zero and the vertical offset (when centering) is the floor of half
the vertical slack; concretely, image 200×100 in viewport 100×100 fits to
(100, 50) at offset (0, 25), and image 100×200 in viewport 100×100 fits to
(50, 100) at offset (25, 0). -/
theorem c7_scale_image_binding_dimension (image_w image_h screen_w screen_h : ℚ)
    (c : Bool) :
    (screen_w / screen_h < image_w / image_h →
      scale_image image_w image_h screen_w screen_h c =
        ((screen_w, ((⌊screen_w / (image_w / image_h)⌋ : ℤ) : ℚ)),
         (0, if c then
              ((⌊(screen_h - ((⌊screen_w / (image_w / image_h)⌋ : ℤ) : ℚ)) / 2⌋ : ℤ) : ℚ)
            else 0)))
    ∧ scale_image 200 100 100 100 true = ((100, 50), (0, 25))
    ∧ scale_image 100 200 100 100 true = ((50, 100), (25, 0)) := by
  refine ⟨?_, by norm_num [scale_image], by norm_num [scale_image]⟩
  intro h
  simp only [scale_image]
  rw [if_pos h]

/-- Witness for C7: the width-binding branch evaluated at image 200×100 in
viewport 100×100. -/
theorem c7_scale_image_binding_dimension_witness :
    scale_image 200 100 100 100 true =
      ((100, ((⌊(100:ℚ) / (200 / 100)⌋ : ℤ) : ℚ)),
       (0, if true then
            ((⌊((100:ℚ) - ((⌊(100:ℚ) / (200 / 100)⌋ : ℤ) : ℚ)) / 2⌋ : ℤ) : ℚ)
          else 0)) :=
  (c7_scale_image_binding_dimension 200 100 100 100 true).1 (by norm_num)

/-! ## C8: answer highlighting -/

lemma asciiLetters_get (i : Nat) (h : i < 52) :
    asciiLetters.get? i = some (asciiLetters.getD i ' ') := by
  have hall : ∀ j, j < 52 → asciiLetters.get? j = some (asciiLetters.getD j ' ') := by decide
  exact hall i h

lemma renderOption_ok (ans : PyAnswer) (a : ℤ) (i : Nat) (opt : String)
    (ha : answerInt ans = some a) (hi : i < 52) :
    renderOption true ans i opt = .ok (optionRow a i opt) := by
  unfold renderOption
  rw [asciiLetters_get i hi]
  simp [ha, optionRow]

lemma renderLoop_ok (ans : PyAnswer) (a : ℤ) (ha : answerInt ans = some a) :
    ∀ (opts : List String) (n : Nat), n + opts.length ≤ 52 →
      renderLoop true ans n opts = .ok (optionRows a n opts) := by
  intro opts
  induction opts with
  | nil => intro n _; rfl
  | cons o os ih =>
    intro n hn
    unfold renderLoop
    rw [renderOption_ok ans a n o ha (by simp at hn; omega),
      ih (n+1) (by simp at hn ⊢; omega)]
    rfl

lemma optionRows_mem (a : ℤ) :
    ∀ (opts : List String) (n : Nat) (r : String × Bool), r ∈ optionRows a n opts →
      ∃ i, n ≤ i ∧ i < n + opts.length ∧ r.2 = ((i : ℤ) + 1 == a) := by
  intro opts
  induction opts with
  | nil => intro n r h; simp [optionRows] at h
  | cons o os ih =>
    intro n r h
    unfold optionRows at h
    rcases List.mem_cons.mp h with h1 | h2
    · refine ⟨n, le_refl n, by simp, ?_⟩
      rw [h1]
      rfl

    · obtain ⟨i, hi1, hi2, hi3⟩ := ih (n+1) r h2
      exact ⟨i, by omega, by simp only [List.length_cons]; omega, hi3⟩

/-- C8 counterexample: the claim promises that an out-of-range `answer` never
crashes rendering, but with 53 options (one more than `string.ascii_letters`
has letters) the letter-prefix lookup raises an `IndexError` regardless of
the answer, so rendering the revealed question fails. -/
theorem c8_counterexample :
    answerInt (.str "99") = some 99
    ∧ ((99:ℤ) < 1 ∨ ((List.replicate 53 "o").length : ℤ) < 99)
    ∧ renderedOptions
        { question := "q", options := List.replicate 53 "o", answer := .str "99" } true =
        .error () := by
  refine ⟨rfl, Or.inr (by norm_num), rfl⟩

/-- C8 (amended): for a revealed question whose `answer` converts to the
integer `a` and which has at most 52 options (the length of
`string.ascii_letters`; with more options the letter-prefix lookup raises
regardless of the answer), rendering succeeds and produces one row per
option, the row at 0-based index `i` highlighted exactly when `i+1 = a`; in
particular an out-of-range `a` highlights nothing and does not crash.  The
closed conjuncts check the end-to-end example: a two-option question with
`answer: 2`, revealed, highlights the second option and not the first. -/
theorem c8_answer_highlight (q : Question) (a : ℤ)
    (ha : answerInt q.answer = some a) (hlen : q.options.length ≤ 52) :
    renderedOptions q true = .ok (optionRows a 0 q.options)
    ∧ (∀ (i : Nat) (opt : String), (optionRow a i opt).2 = true ↔ (i : ℤ) + 1 = a)
    ∧ ((a < 1 ∨ (q.options.length : ℤ) < a) →
        ∀ r ∈ optionRows a 0 q.options, r.2 = false)
    ∧ read_questions "f" ["question: q", "option: x", "option: y", "answer: 2"] =
        .ok [{ question := "q", options := ["x", "y"], answer := .str "2" }]
    ∧ renderedOptions { question := "q", options := ["x", "y"], answer := .str "2" } true =
        .ok [("a. x", false), ("b. y", true)] := by
  refine ⟨?_, ?_, ?_, rfl, rfl⟩
  · exact renderLoop_ok q.answer a ha q.options 0 (by omega)
  · intro i opt
    simp [optionRow]
  · intro hrange r hr
    obtain ⟨i, hi1, hi2, hi3⟩ := optionRows_mem a q.options 0 r hr
    rw [hi3]
    have hne : (i : ℤ) + 1 ≠ a := by
      have hilen : i < q.options.length := by omega
      have : (i : ℤ) < (q.options.length : ℤ) := by exact_mod_cast hilen
      rcases hrange with h | h <;> omega
    simp [hne]

/-- Witness for C8 at the two-option question with `answer: 2`. -/
theorem c8_answer_highlight_witness :
    renderedOptions { question := "q", options := ["x", "y"], answer := .str "2" } true =
      .ok (optionRows 2 0 ["x", "y"]) :=
  (c8_answer_highlight { question := "q", options := ["x", "y"], answer := .str "2" } 2
    (by decide) (by decide)).1

/-! ## C9: the body line -/

/-- C9 counterexample: a record can carry `final_text` present but equal to
the empty string (from a `final_text:` line); the claim then promises the
body line is that `final_text`, but Python's `or` treats the empty string as
falsy and the code shows `question` instead. -/
theorem c9_counterexample :
    read_questions "f" ["question: q", "final_text:"] =
      .ok [{ question := "q", final_text := some "" }]
    ∧ ({ question := "q", final_text := some "" } : Question).final_text = some ""
    ∧ bodyText { question := "q", final_text := some "" } true = "q"
    ∧ ("q" : String) ≠ "" :=
  ⟨rfl, rfl, rfl, by decide⟩

/-- C9 (amended): the body line is `question` when not revealed; when
revealed it is `final_text` if that is present and non-empty, and falls back
to `question` when `final_text` is absent or the empty string. -/
theorem c9_body_line (q : Question) (t : String) :
    bodyText q false = q.question
    ∧ (q.final_text = none → bodyText q true = q.question)
    ∧ (q.final_text = some "" → bodyText q true = q.question)
    ∧ (q.final_text = some t → t ≠ "" → bodyText q true = t) := by
  refine ⟨rfl, ?_, ?_, ?_⟩
  · intro h
    simp [bodyText, h]
  · intro h
    simp [bodyText, h]
  · intro h ht
    have hlen : t.length ≠ 0 := by
      intro hl
      exact ht (String.ext (List.length_eq_zero.mp hl))
    simp [bodyText, h, hlen]

/-- Witness for C9: revealed question with non-empty `final_text` shows it. -/
theorem c9_body_line_witness :
    bodyText { question := "q", final_text := some "ft" } true = "ft" :=
  (c9_body_line { question := "q", final_text := some "ft" } "ft").2.2.2 rfl (by decide)

/-! ## C10: raw `answer` storage and revealed-render failure -/

/-- C10 counterexample: the claim quantifies over every record with a
non-numeric `answer`, but a record with no options renders fine even when
revealed, because `int(quest.answer)` is only evaluated inside the options
loop. -/
theorem c10_counterexample :
    pyStrToInt "banana" = none
    ∧ read_questions "f" ["question: q", "answer: banana"] =
        .ok [{ question := "q", answer := .str "banana" }]
    ∧ renderedOptions { question := "q", answer := .str "banana" } true = .ok [] :=
  ⟨rfl, rfl, rfl⟩

/-- C10 (amended): the parser stores the `answer` value as the raw string
without conversion or validation; the integer conversion happens only in the
renderer, so a record with a non-numeric `answer` parses fine, and rendering
it revealed raises (provided it has at least one option — with no options the
conversion is never reached).  The closed conjuncts evaluate the end-to-end
example `answer: banana` with one option: parsing succeeds, the revealed
render fails, the unrevealed render succeeds. -/
theorem c10_answer_stored_raw (bp fn : String) (ln : Nat) (q : Question) (line v : String)
    (hsplit : splitNameValue line = some ("answer", v)) (hbad : pyStrToInt v = none) :
    applyField bp fn ln line q = .ok { q with answer := .str v }
    ∧ (∀ q2 : Question, q2.answer = .str v → q2.options ≠ [] →
        renderedOptions q2 true = .error ())
    ∧ read_questions "f" ["question: q", "option: x", "answer: banana"] =
        .ok [{ question := "q", options := ["x"], answer := .str "banana" }]
    ∧ renderedOptions { question := "q", options := ["x"], answer := .str "banana" } true =
        .error ()
    ∧ renderedOptions { question := "q", options := ["x"], answer := .str "banana" } false =
        .ok [("a. x", false)] := by
  refine ⟨?_, ?_, rfl, rfl, rfl⟩
  · unfold applyField
    rw [hsplit]
    rfl
  · intro q2 ha2 hopts
    obtain ⟨o, os, ho⟩ : ∃ o os, q2.options = o :: os := by
      cases hq : q2.options with
      | nil => exact absurd hq hopts
      | cons o os => exact ⟨o, os, rfl⟩
    unfold renderedOptions
    rw [ho, ha2]
    unfold renderLoop renderOption
    rw [show asciiLetters.get? 0 = some 'a' from rfl]
    simp [answerInt, hbad]

/-- Witness for C10: the `answer: banana` line stores the raw string. -/
theorem c10_answer_stored_raw_witness :
    applyField "" "g" 1 "answer: banana" ({} : Question) =
      .ok { ({} : Question) with answer := .str "banana" } :=
  (c10_answer_stored_raw "" "g" 1 {} "answer: banana" "banana" rfl rfl).1

end QSpec
